import Mathlib

/-!
A shallow embedding of the `ecs_state` package: the gorm data model, the
reconciliation (refresh) operations, the task-definition resolver and the
placement query, together with theorems about them.

The gorm-backed store is modelled as lists of records per table.  The call
`db.Where(finder).Assign(assignment).FirstOrCreate(&model)` is modelled as
an upsert keyed on the finder's primary key: the first row whose key matches
is overwritten with the assignment, otherwise the assignment is appended as
a new row.  External ECS API calls are inputs to the embedded operations: a
paginated list+describe cycle is a list of pages, each page an `Option`
(`none` = the DescribeX call for that page returned an error), and a flag
recording whether the pagination (list) call itself succeeded.
-/

namespace EcsState

/-! ## Data model (the gorm models of the repository) -/

/-- Local representation of an ECS ContainerInstance (gorm model). -/
structure ContainerInstance where
  arn : String
  agentConnected : Bool
  agentHash : String
  agentVersion : String
  agentUpdateStatus : String
  clusterARN : String
  dockerVersion : String
  ec2InstanceId : String
  registeredCPU : Int
  registeredMemory : Int
  registeredTCPPorts : String
  registeredUDPPorts : String
  remainingCPU : Int
  remainingMemory : Int
  remainingTCPPorts : String
  remainingUDPPorts : String
  status : String
  refreshTime : Int
  deriving DecidableEq

/-- Local representation of an ECS Task (gorm model). -/
structure Task where
  arn : String
  desiredStatus : String
  lastStatus : String
  startedBy : String
  clusterARN : String
  containerInstanceARN : String
  taskDefinitionARN : String
  refreshTime : Int
  deriving DecidableEq

/-- Local representation of an ECS TaskDefinition (gorm model). -/
structure TaskDefinition where
  arn : String
  shortString : String
  cpu : Int
  memory : Int
  tcpPorts : String
  udpPorts : String
  deriving DecidableEq

/-- Local representation of an ECS cluster (gorm model). -/
structure Cluster where
  arn : String
  name : String
  status : String
  deriving DecidableEq

/-! ## Shapes of the external ECS API records the code consumes -/

/-- An `ecs.Resource`: a named value in a RegisteredResources or
RemainingResources list.  (`rtype` is the Go field `Type`.) -/
structure Resource where
  name : String
  rtype : String
  integerValue : Int
  stringSetValue : List String
  deriving DecidableEq

/-- The `ecs.VersionInfo` sub-object of a described container instance. -/
structure VersionInfo where
  agentHash : Option String
  agentVersion : Option String
  dockerVersion : Option String
  deriving DecidableEq

/-- An `ecs.ContainerInstance` as returned by DescribeContainerInstances;
`Option` marks the pointer fields the code checks for nil. -/
structure ApiContainerInstance where
  containerInstanceArn : String
  agentConnected : Option Bool
  versionInfo : Option VersionInfo
  agentUpdateStatus : Option String
  ec2InstanceId : Option String
  registeredResources : Option (List Resource)
  remainingResources : Option (List Resource)
  status : Option String
  deriving DecidableEq

/-- An `ecs.Task` as returned by DescribeTasks.  The API reports a
`LastStatus`; the code never reads it, which the C10 theorem makes precise. -/
structure ApiTask where
  taskArn : String
  clusterArn : String
  containerInstanceArn : String
  taskDefinitionArn : String
  desiredStatus : String
  lastStatus : String
  startedBy : Option String
  deriving DecidableEq

/-- An `ecs.PortMapping` of a container definition. -/
structure PortMapping where
  hostPort : Option Int
  protocol : Option String
  deriving DecidableEq

/-- An `ecs.ContainerDefinition` inside a described task definition. -/
structure ContainerDefinition where
  cpu : Int
  memory : Int
  portMappings : List PortMapping
  deriving DecidableEq

/-- An `ecs.TaskDefinition` as returned by DescribeTaskDefinition. -/
structure ApiTaskDefinition where
  taskDefinitionArn : String
  family : String
  revision : Int
  containerDefinitions : List ContainerDefinition
  deriving DecidableEq

/-- An `ecs.Cluster` as returned by DescribeClusters. -/
structure ApiCluster where
  clusterArn : String
  clusterName : String
  status : String
  deriving DecidableEq

/-! ## The store -/

/-- The sqlite-backed local state: one table per gorm model. -/
structure Store where
  clusters : List Cluster
  containerInstances : List ContainerInstance
  tasks : List Task
  taskDefinitions : List TaskDefinition
  deriving DecidableEq

/-- `db.Where(finder).Assign(assignment).FirstOrCreate`: overwrite the first
row whose key equals the finder's key `k` with the assignment `a` (whose key
is already `k`), or append `a` when no row matches. -/
def upsertRow {α : Type} (key : α → String) (k : String) (a : α) : List α → List α
  | [] => [a]
  | r :: rest => if key r = k then a :: rest else r :: upsertRow key k a rest

/-! ## String helpers: the port-set serialization and the SQL predicates -/

/-- Whether the character list `s` begins with the character list `pat`. -/
def listBeginsWith : List Char → List Char → Bool
  | _, [] => true
  | [], _ :: _ => false
  | c :: cs, p :: ps => c = p && listBeginsWith cs ps

/-- Whether `pat` occurs as a contiguous sublist of `s`; this is SQLite's
`instr(s, pat) <> 0`. -/
def listHasSub : List Char → List Char → Bool
  | [], pat => pat.isEmpty
  | c :: rest, pat => listBeginsWith (c :: rest) pat || listHasSub rest pat

/-- SQLite `instr(s, pat) <> 0` on strings. -/
def strHasSub (s pat : String) : Bool := listHasSub s.data pat.data

/-- `strings.HasPrefix(s, pat)` of the Go standard library. -/
def strBeginsWith (s pat : String) : Bool := listBeginsWith s.data pat.data

/-- `portStringBuilder`: serialize a port list as `=p1==p2=...` by appending
`=p=` for each port to a buffer. -/
def portStringBuilder (ports : List String) : String :=
  ports.foldl (fun buffer p => buffer ++ "=" ++ p ++ "=") ""

/-- `strings.Split(s, ",")` of the Go standard library, on characters,
carrying the current field in reverse. -/
def splitCommaAux : List Char → List Char → List (List Char)
  | [], acc => [acc.reverse]
  | c :: rest, acc =>
    if c = ',' then acc.reverse :: splitCommaAux rest [] else splitCommaAux rest (c :: acc)

/-- The port list `buildPortQuery` iterates over: split the serialized
template ports on commas and skip empty entries (`len(port) == 0`). -/
def splitPorts (ports : String) : List String :=
  ((splitCommaAux ports.data []).map (fun cs => String.mk cs)).filter (fun p => p.length ≠ 0)

/-- `strings.Join(l, ",")` of the Go standard library. -/
def joinComma : List String → String
  | [] => ""
  | [p] => p
  | p :: rest => p ++ "," ++ joinComma rest

/-! ## Unpacking resources: `getResourceAsInt`, `getResourceAsPortSet` -/

/-- Retrieve a single resource's value as an integer: the first entry with
the given name and type INTEGER, else the default. -/
def getResourceAsInt : List Resource → String → Int → Int
  | [], _, defaultValue => defaultValue
  | r :: rest, nm, defaultValue =>
    if r.name = nm ∧ r.rtype = "INTEGER" then r.integerValue
    else getResourceAsInt rest nm defaultValue

/-- Retrieve a port set resource as its serialized string: the first entry
with the given name and type STRINGSET run through `portStringBuilder`,
else the default. -/
def getResourceAsPortSet : List Resource → String → String → String
  | [], _, defaultValue => defaultValue
  | r :: rest, nm, defaultValue =>
    if r.name = nm ∧ r.rtype = "STRINGSET" then portStringBuilder r.stringSetValue
    else getResourceAsPortSet rest nm defaultValue

/-! ## Assignments built from described records -/

/-- `containerInstanceAssignment`: the ContainerInstance model built from a
described instance, to be used in a gorm `Assign` call.  Fields the ECS
record leaves nil keep the Go zero value. -/
def containerInstanceAssignment (cluster : Cluster) (ci : ApiContainerInstance) :
    ContainerInstance :=
  { arn := ""
    agentConnected := ci.agentConnected.getD false
    agentHash := (ci.versionInfo.bind (fun vi => vi.agentHash)).getD ""
    agentVersion := (ci.versionInfo.bind (fun vi => vi.agentVersion)).getD ""
    agentUpdateStatus := ci.agentUpdateStatus.getD ""
    clusterARN := cluster.arn
    dockerVersion := (ci.versionInfo.bind (fun vi => vi.dockerVersion)).getD ""
    ec2InstanceId := ci.ec2InstanceId.getD ""
    registeredCPU :=
      (ci.registeredResources.map (fun rs => getResourceAsInt rs "CPU" 0)).getD 0
    registeredMemory :=
      (ci.registeredResources.map (fun rs => getResourceAsInt rs "MEMORY" 0)).getD 0
    registeredTCPPorts :=
      (ci.registeredResources.map (fun rs => getResourceAsPortSet rs "PORTS" "")).getD ""
    registeredUDPPorts :=
      (ci.registeredResources.map (fun rs => getResourceAsPortSet rs "PORTS_UDP" "")).getD ""
    remainingCPU :=
      (ci.remainingResources.map (fun rs => getResourceAsInt rs "CPU" 0)).getD 0
    remainingMemory :=
      (ci.remainingResources.map (fun rs => getResourceAsInt rs "MEMORY" 0)).getD 0
    remainingTCPPorts :=
      (ci.remainingResources.map (fun rs => getResourceAsPortSet rs "PORTS" "")).getD ""
    remainingUDPPorts :=
      (ci.remainingResources.map (fun rs => getResourceAsPortSet rs "PORTS_UDP" "")).getD ""
    status := ci.status.getD ""
    refreshTime := 0 }

/-- `taskAssignment`: the Task model built from a described task, to be used
in a gorm `Assign` call.  Both status columns are assigned from the
external record's DesiredStatus. -/
def taskAssignment (task : ApiTask) : Task :=
  { arn := ""
    clusterARN := task.clusterArn
    containerInstanceARN := task.containerInstanceArn
    taskDefinitionARN := task.taskDefinitionArn
    desiredStatus := task.desiredStatus
    lastStatus := task.desiredStatus
    startedBy := task.startedBy.getD ""
    refreshTime := 0 }

/-- The ContainerInstance row a refresh cycle upserts for one described
instance: the assignment, keyed by the finder's ARN and stamped with the
cycle's refresh time. -/
def containerInstanceRow (cluster : Cluster) (refreshTime : Int)
    (ci : ApiContainerInstance) : ContainerInstance :=
  { containerInstanceAssignment cluster ci with
      arn := ci.containerInstanceArn, refreshTime := refreshTime }

/-- The Task row a refresh cycle upserts for one described task. -/
def taskRow (refreshTime : Int) (t : ApiTask) : Task :=
  { taskAssignment t with arn := t.taskArn, refreshTime := refreshTime }

/-! ## Cluster lookup and the refresh (reconciliation) operations -/

/-- `FindClusterByName`: the first cluster row with the given name, or the
zero Cluster when none matches. -/
def findClusterByName (store : Store) (name : String) : Cluster :=
  (store.clusters.find? (fun c => c.name = name)).getD ⟨"", "", ""⟩

/-- The Cluster row `RefreshClusterState` upserts for one described
cluster. -/
def clusterRow (c : ApiCluster) : Cluster :=
  ⟨c.clusterArn, c.clusterName, c.status⟩

/-- `RefreshClusterState`: DescribeClusters on the tracked cluster name and
upsert each returned cluster keyed on its ARN; on a call error
(`resp = none`) log and return with the store untouched. -/
def refreshClusterState (store : Store) (resp : Option (List ApiCluster)) : Store :=
  match resp with
  | none => store
  | some clusters =>
    { store with
        clusters := clusters.foldl
          (fun rows c => upsertRow Cluster.arn c.clusterArn (clusterRow c) rows)
          store.clusters }

/-- The page callback body of `RefreshContainerInstanceState`: a page whose
DescribeContainerInstances call failed (`none`) is logged and skipped while
pagination continues; a described page upserts every instance keyed on its
ARN, stamped with the cycle's refresh time. -/
def processContainerInstancePages (cluster : Cluster) (refreshTime : Int)
    (pages : List (Option (List ApiContainerInstance)))
    (rows : List ContainerInstance) : List ContainerInstance :=
  pages.foldl
    (fun rows page =>
      match page with
      | none => rows
      | some instances =>
        instances.foldl
          (fun rows ci =>
            upsertRow ContainerInstance.arn ci.containerInstanceArn
              (containerInstanceRow cluster refreshTime ci) rows)
          rows)
    rows

/-- `RefreshContainerInstanceState`: resolve the tracked cluster, page
through list+describe upserting each described instance, and — only when the
paginated list call itself succeeded (`listOk`) — delete every row whose
refresh time predates the cycle.  A failed per-page describe call does not
make the list call fail. -/
def refreshContainerInstanceState (store : Store) (clusterName : String)
    (pages : List (Option (List ApiContainerInstance))) (listOk : Bool)
    (refreshTime : Int) : Store :=
  let cluster := findClusterByName store clusterName
  let rows := processContainerInstancePages cluster refreshTime pages store.containerInstances
  if listOk then
    { store with containerInstances := rows.filter (fun r => !(r.refreshTime < refreshTime : Bool)) }
  else
    { store with containerInstances := rows }

/-- The page callback body of `RefreshTaskState`: as for container
instances, a failed DescribeTasks page is skipped while pagination
continues. -/
def processTaskPages (refreshTime : Int) (pages : List (Option (List ApiTask)))
    (rows : List Task) : List Task :=
  pages.foldl
    (fun rows page =>
      match page with
      | none => rows
      | some tasks =>
        tasks.foldl
          (fun rows t => upsertRow Task.arn t.taskArn (taskRow refreshTime t) rows)
          rows)
    rows

/-- `RefreshTaskState`: page through list+describe upserting each described
task, and — only when the paginated list call succeeded — delete every task
row whose refresh time predates the cycle. -/
def refreshTaskState (store : Store) (pages : List (Option (List ApiTask)))
    (listOk : Bool) (refreshTime : Int) : Store :=
  let rows := processTaskPages refreshTime pages store.tasks
  if listOk then
    { store with tasks := rows.filter (fun r => !(r.refreshTime < refreshTime : Bool)) }
  else
    { store with tasks := rows }

/-! ## Task-definition resolution -/

/-- Whether a stored TaskDefinition row matches the reference `td`: by ARN
when the reference begins with `arn:aws:ecs:`, by short string otherwise
(the two query strings of `FindTaskDefinition`). -/
def taskDefinitionMatches (td : String) (r : TaskDefinition) : Bool :=
  (if strBeginsWith td "arn:aws:ecs:" then r.arn else r.shortString) = td

/-- The aggregation loop of `FindTaskDefinition`: fold over the container
definitions summing CPU and memory and collecting every host port declared
non-nil and non-zero, UDP ports when the declared protocol is `udp`, TCP
ports otherwise (a nil protocol lands in TCP). -/
def aggregateDefinitions (cds : List ContainerDefinition) :
    Int × Int × List String × List String :=
  cds.foldl
    (fun acc cd =>
      let ports := cd.portMappings.foldl
        (fun (tu : List String × List String) pm =>
          match pm.hostPort with
          | none => tu
          | some hp =>
            if hp ≠ 0 then
              if pm.protocol = some "udp" then (tu.1, tu.2 ++ [toString hp])
              else (tu.1 ++ [toString hp], tu.2)
            else tu)
        (acc.2.2.1, acc.2.2.2)
      (acc.1 + cd.cpu, acc.2.1 + cd.memory, ports.1, ports.2))
    (0, 0, [], [])

/-- The TaskDefinition record `FindTaskDefinition` builds from a described
task definition: ARN, `family:revision` short string, aggregate CPU and
memory, and the comma-joined TCP and UDP host port lists. -/
def resolvedTaskDefinition (resp : ApiTaskDefinition) : TaskDefinition :=
  let agg := aggregateDefinitions resp.containerDefinitions
  { arn := resp.taskDefinitionArn
    shortString := resp.family ++ ":" ++ toString resp.revision
    cpu := agg.1
    memory := agg.2.1
    tcpPorts := joinComma agg.2.2.1
    udpPorts := joinComma agg.2.2.2 }

/-- `db.Create(&taskDefinition)`: insert the row unless the primary key
(ARN) or the unique short string collides with an existing row, in which
case sqlite rejects the insert and the code ignores the error. -/
def createTaskDefinition (store : Store) (r : TaskDefinition) : Store :=
  if store.taskDefinitions.any (fun x => x.arn = r.arn || x.shortString = r.shortString) then
    store
  else
    { store with taskDefinitions := store.taskDefinitions ++ [r] }

/-- `FindTaskDefinition`: look the reference up in the local store (by ARN
or short string); on a hit return the stored row without calling ECS.  On a
miss call DescribeTaskDefinition: `describe = none` models a failed call,
after which the code only logs the error and then dereferences
`resp.TaskDefinition`, which the AWS SDK leaves nil on error — a nil-pointer
panic, modelled as the `none` result.  On a successful describe, build the
record, insert it and return it.  The `Bool` reports whether the external
describe call was made. -/
def findTaskDefinition (store : Store) (td : String)
    (describe : Option ApiTaskDefinition) :
    Option (Store × TaskDefinition × Bool) :=
  match store.taskDefinitions.find? (taskDefinitionMatches td) with
  | some r => some (store, r, false)
  | none =>
    match describe with
    | none => none
    | some resp =>
      let record := resolvedTaskDefinition resp
      some (createTaskDefinition store record, record, true)

/-! ## The placement query -/

/-- The row predicate of the query `buildPortQuery` emits for one serialized
template port column: every non-empty comma-separated port `p` must satisfy
`instr(column, "=p=") = 0`, i.e. not occur in the serialized remaining-port
column. -/
def portQueryHolds (column : String) (ports : String) : Bool :=
  (splitPorts ports).all (fun p => !(strHasSub column ("=" ++ p ++ "=")))

/-- The full WHERE clause of `FindLocationsForTaskDefinition` evaluated on
one ContainerInstance row: remaining CPU and memory at least the template's,
agent connected, and both port-disjointness queries. -/
def matchesLocationQuery (td : TaskDefinition) (r : ContainerInstance) : Bool :=
  decide (td.cpu ≤ r.remainingCPU) && decide (td.memory ≤ r.remainingMemory) &&
    r.agentConnected &&
    portQueryHolds r.remainingTCPPorts td.tcpPorts &&
    portQueryHolds r.remainingUDPPorts td.udpPorts

/-- The `Find` step of `FindLocationsForTaskDefinition`: all
ContainerInstance rows satisfying the WHERE clause built from the resolved
task definition. -/
def findLocationsQuery (store : Store) (td : TaskDefinition) : List ContainerInstance :=
  store.containerInstances.filter (matchesLocationQuery td)

/-- `FindLocationsForTaskDefinition`: resolve the task definition (possibly
describing and caching it, possibly panicking on a failed describe), then
run the location query against the resulting store. -/
def findLocationsForTaskDefinition (store : Store) (td : String)
    (describe : Option ApiTaskDefinition) :
    Option (Store × List ContainerInstance) :=
  match findTaskDefinition store td describe with
  | none => none
  | some (store1, record, _) => some (store1, findLocationsQuery store1 record)

/-! ## Concrete records used by the example parts of the claims -/

/-- The characters of the serialized port blocks `=p1==p2=...`. -/
def portBlocks : List String → List Char
  | [] => []
  | p :: rest => '=' :: (p.data ++ '=' :: portBlocks rest)

/-- A node whose free capacity is ample and whose remaining TCP port string
serializes the set `{80, 443}`. -/
def nodePorts80443 : ContainerInstance :=
  { arn := "arn:aws:ecs:us-east-1:12345:container-instance/i-1"
    agentConnected := true
    agentHash := ""
    agentVersion := "1.0.0"
    agentUpdateStatus := ""
    clusterARN := "arn:aws:ecs:us-east-1:12345:cluster/default"
    dockerVersion := ""
    ec2InstanceId := "i-1"
    registeredCPU := 2048
    registeredMemory := 4096
    registeredTCPPorts := ""
    registeredUDPPorts := ""
    remainingCPU := 1024
    remainingMemory := 2048
    remainingTCPPorts := portStringBuilder ["80", "443"]
    remainingUDPPorts := ""
    status := "ACTIVE"
    refreshTime := 100 }

/-- A template requiring modest CPU and memory and TCP port 443. -/
def templateTcp443 : TaskDefinition :=
  { arn := "arn:aws:ecs:us-east-1:12345:task-definition/a:1"
    shortString := "a:1"
    cpu := 256
    memory := 512
    tcpPorts := "443"
    udpPorts := "" }

/-- The same template shape requiring TCP port 22 instead. -/
def templateTcp22 : TaskDefinition :=
  { arn := "arn:aws:ecs:us-east-1:12345:task-definition/b:1"
    shortString := "b:1"
    cpu := 256
    memory := 512
    tcpPorts := "22"
    udpPorts := "" }

/-- The store holding only `nodePorts80443`. -/
def storePorts80443 : Store := ⟨[], [nodePorts80443], [], []⟩

/-- The template of the capacity-filter example: CPU 256, memory 512, TCP
port 80. -/
def templateTcp80 : TaskDefinition :=
  { arn := "arn:aws:ecs:us-east-1:12345:task-definition/c:1"
    shortString := "c:1"
    cpu := 256
    memory := 512
    tcpPorts := "80"
    udpPorts := "" }

/-- A node with remaining CPU 1024 and memory 2048 whose remaining TCP port
set does not contain port 80. -/
def nodeWithout80 : ContainerInstance :=
  { nodePorts80443 with
      arn := "arn:aws:ecs:us-east-1:12345:container-instance/i-2"
      remainingTCPPorts := portStringBuilder ["443"] }

/-- A node with remaining CPU 1024 and memory 2048 whose remaining TCP port
set contains port 80. -/
def nodeWith80 : ContainerInstance :=
  { nodePorts80443 with
      arn := "arn:aws:ecs:us-east-1:12345:container-instance/i-3"
      remainingTCPPorts := portStringBuilder ["80"] }

/-- The store holding the two capacity-filter example nodes. -/
def storeCapacity : Store := ⟨[], [nodeWithout80, nodeWith80], [], []⟩

/-- A node stamped by an earlier cycle (refresh time 50). -/
def staleNode : ContainerInstance :=
  { nodePorts80443 with
      arn := "arn:aws:ecs:us-east-1:12345:container-instance/i-stale"
      remainingTCPPorts := ""
      refreshTime := 50 }

/-- The store holding only `staleNode`. -/
def storeStale : Store := ⟨[], [staleNode], [], []⟩

/-- A second node stamped by the same earlier cycle as `staleNode`. -/
def liveNode : ContainerInstance :=
  { staleNode with
      arn := "arn:aws:ecs:us-east-1:12345:container-instance/i-live"
      ec2InstanceId := "i-live" }

/-- The cycle-N store holding `staleNode` and `liveNode`. -/
def storeCycleN : Store := ⟨[], [staleNode, liveNode], [], []⟩

/-- The cycle-N+1 external snapshot: one fully described page reporting only
the live node. -/
def snapshotCycleN1 : List (Option (List ApiContainerInstance)) :=
  [some [{ containerInstanceArn := liveNode.arn
           agentConnected := some true
           versionInfo := none
           agentUpdateStatus := none
           ec2InstanceId := some "i-live"
           registeredResources := none
           remainingResources := none
           status := some "ACTIVE" }]]

/-- The tracked cluster of the cross-cluster example. -/
def trackedCluster : Cluster :=
  ⟨"arn:aws:ecs:us-east-1:12345:cluster/default", "default", "ACTIVE"⟩

/-- A connected, amply provisioned node stored with a different cluster
ARN than the tracked cluster's. -/
def nodeOtherCluster : ContainerInstance :=
  { nodePorts80443 with
      arn := "arn:aws:ecs:us-east-1:12345:container-instance/i-9"
      clusterARN := "arn:aws:ecs:us-east-1:12345:cluster/other"
      remainingTCPPorts := "" }

/-- The store holding the tracked cluster and the cross-cluster node. -/
def storeCrossCluster : Store := ⟨[trackedCluster], [nodeOtherCluster], [], []⟩

/-- A template with no port requirements. -/
def templateNoPorts : TaskDefinition :=
  { arn := "arn:aws:ecs:us-east-1:12345:task-definition/d:1"
    shortString := "d:1"
    cpu := 256
    memory := 512
    tcpPorts := ""
    udpPorts := "" }

/-- Specification-side restatement of the port-collection rule, used to
state what the aggregation loop computes: the host ports declared non-nil
and non-zero whose protocol is not `udp`, in declaration order. -/
def declaredTcpPorts (cds : List ContainerDefinition) : List String :=
  (cds.map (fun cd =>
    cd.portMappings.filterMap (fun pm =>
      match pm.hostPort with
      | none => none
      | some hp =>
        if hp ≠ 0 ∧ ¬pm.protocol = some "udp" then some (toString hp) else none))).flatten

/-- Specification-side restatement of the port-collection rule for UDP: the
host ports declared non-nil and non-zero whose protocol is `udp`. -/
def declaredUdpPorts (cds : List ContainerDefinition) : List String :=
  (cds.map (fun cd =>
    cd.portMappings.filterMap (fun pm =>
      match pm.hostPort with
      | none => none
      | some hp =>
        if hp ≠ 0 ∧ pm.protocol = some "udp" then some (toString hp) else none))).flatten

/-- The empty store. -/
def storeEmpty : Store := ⟨[], [], [], []⟩

/-- A described task definition with two container definitions exercising
every port-collection branch: an unspecified protocol, a UDP mapping, a nil
host port, a zero host port and an explicit TCP mapping. -/
def respWeb3 : ApiTaskDefinition :=
  { taskDefinitionArn := "arn:aws:ecs:us-east-1:12345:task-definition/web:3"
    family := "web"
    revision := 3
    containerDefinitions :=
      [ { cpu := 256
          memory := 512
          portMappings :=
            [ { hostPort := some 80, protocol := none }
            , { hostPort := some 53, protocol := some "udp" }
            , { hostPort := none, protocol := some "tcp" }
            , { hostPort := some 0, protocol := none } ] }
      , { cpu := 128
          memory := 256
          portMappings := [ { hostPort := some 443, protocol := some "tcp" } ] } ] }

/-- The store after resolving `respWeb3` into the empty store. -/
def storeWeb3 : Store := createTaskDefinition storeEmpty (resolvedTaskDefinition respWeb3)

/-- A container-instance record with its refresh epoch erased, for
comparing observable content across cycles. -/
def stripContainerInstance (r : ContainerInstance) : ContainerInstance :=
  { r with refreshTime := 0 }

/-- A task record with its refresh epoch erased. -/
def stripTask (r : Task) : Task :=
  { r with refreshTime := 0 }

/-- What one upsert does to the rows sharing the upserted key: replace the
first such row, or create the single row when none exists. -/
def keyStep {α : Type} (a : α) : List α → List α
  | [] => [a]
  | _ :: rest => a :: rest

/-- All records a paginated snapshot describes, in page order; a failed
describe page contributes nothing. -/
def flattenPages {γ : Type} (pages : List (Option (List γ))) : List γ :=
  (pages.map (fun p => p.getD [])).flatten

/-! ## Lemmas about the port-set serialization and substring search -/

/-- A character list begins with itself, whatever follows. -/
theorem listBeginsWith_append (x y : List Char) : listBeginsWith (x ++ y) x = true := by
  induction x with
  | nil => cases y <;> rfl
  | cons c cs ih => simpa [listBeginsWith] using ih

/-- The empty pattern occurs in every character list. -/
theorem listHasSub_nil (s : List Char) : listHasSub s [] = true := by
  cases s with
  | nil => rfl
  | cons c rest => simp [listHasSub, listBeginsWith]

/-- An occurrence in the right part survives prepending more characters. -/
theorem listHasSub_append_left (x : List Char) {y pat : List Char}
    (h : listHasSub y pat = true) : listHasSub (x ++ y) pat = true := by
  induction x with
  | nil => simpa using h
  | cons c cs ih => simp [listHasSub, ih]

/-- A pattern occurs in itself followed by anything. -/
theorem listHasSub_self_append (pat v : List Char) :
    listHasSub (pat ++ v) pat = true := by
  cases pat with
  | nil => simpa using listHasSub_nil v
  | cons c cs =>
    simp only [listHasSub, Bool.or_eq_true]
    exact Or.inl (by simpa using listBeginsWith_append (c :: cs) v)

/-- The buffer loop of `portStringBuilder` appends the port blocks to the
accumulator. -/
theorem portStringBuilder_foldl_data (l : List String) :
    ∀ acc : String,
      (l.foldl (fun buffer p => buffer ++ "=" ++ p ++ "=") acc).data =
        acc.data ++ portBlocks l := by
  induction l with
  | nil => intro acc; simp [portBlocks]
  | cons p rest ih =>
    intro acc
    simp only [List.foldl_cons, ih, String.data_append, portBlocks]
    simp

/-- The serialized port string is exactly the concatenated port blocks. -/
theorem portStringBuilder_data (l : List String) :
    (portStringBuilder l).data = portBlocks l := by
  simpa using portStringBuilder_foldl_data l ""

/-- A port of the list occurs, delimited, in the concatenated blocks. -/
theorem listHasSub_portBlocks_of_mem {p : String} {l : List String} (h : p ∈ l) :
    listHasSub (portBlocks l) ('=' :: (p.data ++ ['='])) = true := by
  induction l with
  | nil => cases h
  | cons q rest ih =>
    rcases List.mem_cons.mp h with rfl | hmem
    · have : portBlocks (p :: rest) = ('=' :: (p.data ++ ['='])) ++ portBlocks rest := by
        simp [portBlocks]
      rw [this]
      exact listHasSub_self_append _ _
    · have : portBlocks (q :: rest) = ('=' :: (q.data ++ ['='])) ++ portBlocks rest := by
        simp [portBlocks]
      rw [this]
      exact listHasSub_append_left _ (ih hmem)

/-- SQLite `instr` finds `=p=` in the serialized remaining-port string of
any port list containing `p`. -/
theorem strHasSub_portStringBuilder_of_mem {p : String} {l : List String} (h : p ∈ l) :
    strHasSub (portStringBuilder l) ("=" ++ p ++ "=") = true := by
  unfold strHasSub
  rw [portStringBuilder_data]
  have hpat : ("=" ++ p ++ "=").data = '=' :: (p.data ++ ['=']) := by
    simp [String.data_append]
  rw [hpat]
  exact listHasSub_portBlocks_of_mem h

/-- Membership in the location query unpacked into its five conjuncts. -/
theorem mem_findLocationsQuery {store : Store} {td : TaskDefinition}
    {r : ContainerInstance} (h : r ∈ findLocationsQuery store td) :
    r ∈ store.containerInstances ∧
      td.cpu ≤ r.remainingCPU ∧ td.memory ≤ r.remainingMemory ∧
      r.agentConnected = true ∧
      portQueryHolds r.remainingTCPPorts td.tcpPorts = true ∧
      portQueryHolds r.remainingUDPPorts td.udpPorts = true := by
  have h' := List.mem_filter.mp h
  refine ⟨h'.1, ?_⟩
  have hq := h'.2
  simp only [matchesLocationQuery, Bool.and_eq_true, decide_eq_true_eq] at hq
  exact ⟨hq.1.1.1.1, hq.1.1.1.2, hq.1.1.2, hq.1.2, hq.2⟩

/-- A required port present in the serialized remaining set defeats the
port query. -/
theorem not_mem_of_portQueryHolds {column : String} {ports : String}
    {l : List String} (hcol : column = portStringBuilder l)
    (h : portQueryHolds column ports = true) :
    ∀ p ∈ splitPorts ports, p ∉ l := by
  intro p hp hmem
  have hall := (List.all_eq_true.mp h) p hp
  rw [hcol, strHasSub_portStringBuilder_of_mem hmem] at hall
  simp at hall

/-! ## C1: the port-disjointness behaviour of the location query -/

/-- C1: the location query includes an instance only if the template's
required TCP ports are disjoint from the instance's serialized remaining
TCP port set and the required UDP ports are disjoint from the remaining UDP
port set; in particular the node with remaining TCP ports `{80, 443}` is
excluded for the template requiring TCP 443 and included for the template
requiring TCP 22. -/
theorem c1_port_disjointness :
    (∀ (store : Store) (td : TaskDefinition) (r : ContainerInstance)
        (tcpRemaining udpRemaining : List String),
        r.remainingTCPPorts = portStringBuilder tcpRemaining →
        r.remainingUDPPorts = portStringBuilder udpRemaining →
        r ∈ findLocationsQuery store td →
        (∀ p ∈ splitPorts td.tcpPorts, p ∉ tcpRemaining) ∧
          (∀ p ∈ splitPorts td.udpPorts, p ∉ udpRemaining)) ∧
      nodePorts80443 ∉ findLocationsQuery storePorts80443 templateTcp443 ∧
      nodePorts80443 ∈ findLocationsQuery storePorts80443 templateTcp22 := by
  refine ⟨?_, by decide, by decide⟩
  intro store td r tcpRemaining udpRemaining htcp hudp hmem
  have h := mem_findLocationsQuery hmem
  exact ⟨not_mem_of_portQueryHolds htcp h.2.2.2.2.1,
    not_mem_of_portQueryHolds hudp h.2.2.2.2.2⟩

/-! ## Generic lemmas about the upsert and the page folds -/

/-- A row of an upsert result is an untouched original row or the new
assignment. -/
theorem mem_upsertRow {α : Type} {key : α → String} {k : String} {a : α} :
    ∀ {rows : List α} {r : α}, r ∈ upsertRow key k a rows → r ∈ rows ∨ r = a := by
  intro rows
  induction rows with
  | nil =>
    intro r h
    simp only [upsertRow, List.mem_singleton] at h
    exact Or.inr h
  | cons x rest ih =>
    intro r h
    by_cases hk : key x = k
    · simp only [upsertRow, if_pos hk] at h
      rcases List.mem_cons.mp h with rfl | hr
      · exact Or.inr rfl
      · exact Or.inl (List.mem_cons_of_mem _ hr)
    · simp only [upsertRow, if_neg hk] at h
      rcases List.mem_cons.mp h with rfl | hr
      · exact Or.inl (List.mem_cons_self _ _)
      · rcases ih hr with h1 | h2
        · exact Or.inl (List.mem_cons_of_mem _ h1)
        · exact Or.inr h2

/-- An upsert deletes no key: every key present before is present after. -/
theorem upsertRow_key_total {α : Type} {key : α → String} {k : String} {a : α}
    (hka : key a = k) :
    ∀ {rows : List α} {r : α}, r ∈ rows →
      ∃ r', r' ∈ upsertRow key k a rows ∧ key r' = key r := by
  intro rows
  induction rows with
  | nil => intro r h; cases h
  | cons x rest ih =>
    intro r h
    by_cases hk : key x = k
    · simp only [upsertRow, if_pos hk]
      rcases List.mem_cons.mp h with rfl | hr
      · exact ⟨a, List.mem_cons_self _ _, by rw [hka, hk]⟩
      · exact ⟨r, List.mem_cons_of_mem _ hr, rfl⟩
    · simp only [upsertRow, if_neg hk]
      rcases List.mem_cons.mp h with rfl | hr
      · exact ⟨r, List.mem_cons_self _ _, rfl⟩
      · rcases ih hr with ⟨r', hr', hkey⟩
        exact ⟨r', List.mem_cons_of_mem _ hr', hkey⟩

/-- Lift key preservation through a left fold of store steps. -/
theorem foldl_key_total {α γ : Type} (key : α → String) (st : List α → γ → List α)
    (hst : ∀ (rows : List α) (x : γ) (r : α), r ∈ rows →
      ∃ r', r' ∈ st rows x ∧ key r' = key r) :
    ∀ (l : List γ) (rows : List α) (r : α), r ∈ rows →
      ∃ r', r' ∈ l.foldl st rows ∧ key r' = key r := by
  intro l
  induction l with
  | nil => intro rows r h; exact ⟨r, h, rfl⟩
  | cons x xs ih =>
    intro rows r h
    rcases hst rows x r h with ⟨r1, h1, hk1⟩
    rcases ih (st rows x) r1 h1 with ⟨r2, h2, hk2⟩
    exact ⟨r2, h2, hk2.trans hk1⟩

/-- Lift a row-provenance property through a left fold of store steps. -/
theorem foldl_mem_or {α γ : Type} (st : List α → γ → List α) (Q : α → Prop)
    (hst : ∀ (rows : List α) (x : γ) (r : α), r ∈ st rows x → r ∈ rows ∨ Q r) :
    ∀ (l : List γ) (rows : List α) (r : α), r ∈ l.foldl st rows → r ∈ rows ∨ Q r := by
  intro l
  induction l with
  | nil => intro rows r h; exact Or.inl h
  | cons x xs ih =>
    intro rows r h
    rcases ih (st rows x) r h with h1 | h2
    · exact hst rows x r h1
    · exact Or.inr h2

/-- Processing container-instance pages deletes no ARN. -/
theorem processContainerInstancePages_key_total (cluster : Cluster) (t : Int)
    (pages : List (Option (List ApiContainerInstance))) (rows : List ContainerInstance)
    (r : ContainerInstance) (h : r ∈ rows) :
    ∃ r', r' ∈ processContainerInstancePages cluster t pages rows ∧ r'.arn = r.arn := by
  unfold processContainerInstancePages
  refine foldl_key_total ContainerInstance.arn _ ?_ pages rows r h
  intro rows' page r' h'
  cases page with
  | none => exact ⟨r', h', rfl⟩
  | some instances =>
    refine foldl_key_total ContainerInstance.arn _ ?_ instances rows' r' h'
    intro rows'' ci r'' h''
    refine upsertRow_key_total ?_ h''
    rfl

/-- Processing task pages deletes no ARN. -/
theorem processTaskPages_key_total (t : Int) (pages : List (Option (List ApiTask)))
    (rows : List Task) (r : Task) (h : r ∈ rows) :
    ∃ r', r' ∈ processTaskPages t pages rows ∧ r'.arn = r.arn := by
  unfold processTaskPages
  refine foldl_key_total Task.arn _ ?_ pages rows r h
  intro rows' page r' h'
  cases page with
  | none => exact ⟨r', h', rfl⟩
  | some tasks =>
    refine foldl_key_total Task.arn _ ?_ tasks rows' r' h'
    intro rows'' t' r'' h''
    refine upsertRow_key_total ?_ h''
    rfl

/-- A task row produced by page processing is an original row or carries an
assignment whose last status was copied from the desired status. -/
theorem mem_processTaskPages {t : Int} {pages : List (Option (List ApiTask))}
    {rows : List Task} {r : Task} (h : r ∈ processTaskPages t pages rows) :
    r ∈ rows ∨ r.lastStatus = r.desiredStatus := by
  unfold processTaskPages at h
  refine foldl_mem_or _ (fun r => r.lastStatus = r.desiredStatus) ?_ pages rows r h
  intro rows' page r' h'
  cases page with
  | none => exact Or.inl h'
  | some tasks =>
    refine foldl_mem_or _ (fun r => r.lastStatus = r.desiredStatus) ?_ tasks rows' r' h'
    intro rows'' t' r'' h''
    rcases mem_upsertRow h'' with h1 | rfl
    · exact Or.inl h1
    · exact Or.inr rfl

/-! ## C2: the capacity filter's actual port polarity -/

/-- C2 counterexample: for the template requiring CPU 256, memory 512 and
TCP port 80, the query includes the node whose remaining TCP port set does
not contain 80 and excludes the node whose remaining TCP port set contains
80 — the opposite of the claimed polarity. -/
theorem c2_counterexample_port80_polarity :
    nodeWithout80 ∈ findLocationsQuery storeCapacity templateTcp80 ∧
    nodeWith80 ∉ findLocationsQuery storeCapacity templateTcp80 := by decide

/-- C2 amended: for the template requiring CPU 256, memory 512 and TCP port
80, a node with remaining CPU 1024 and memory 2048 whose remaining TCP port
string contains `=80=` is excluded from every store's query result, and the
node without port 80 in its remaining TCP port string is included whenever
it is stored. -/
theorem c2_capacity_filter_polarity :
    ∀ store : Store,
      nodeWith80 ∉ findLocationsQuery store templateTcp80 ∧
      (nodeWithout80 ∈ store.containerInstances →
        nodeWithout80 ∈ findLocationsQuery store templateTcp80) := by
  intro store
  constructor
  · intro h
    have h2 := (List.mem_filter.mp h).2
    have hf : matchesLocationQuery templateTcp80 nodeWith80 = false := by decide
    rw [hf] at h2
    simp at h2
  · intro h
    exact List.mem_filter.mpr ⟨h, by decide⟩

/-! ## C3: what a mid-cycle failure does to the deletion step -/

/-- C3 counterexample: a cycle whose single batch-describe call fails (the
page is `none`) while the paginated list call succeeds still runs the
stale-record deletion: the stale node stored before the cycle is deleted. -/
theorem c3_counterexample_describe_failure_still_deletes :
    staleNode ∈ storeStale.containerInstances ∧
    (refreshContainerInstanceState storeStale "default" [none] true 100).containerInstances
      = [] := by decide

/-- C3 amended: only a failure of the paginated list call itself aborts the
cycle before the deletion step — under `listOk = false` no container
instance or task record is deleted (every stored ARN is still present),
while upserts from pages processed before the failure remain. -/
theorem c3_list_failure_skips_deletion :
    (∀ (store : Store) (clusterName : String)
        (pages : List (Option (List ApiContainerInstance))) (epoch : Int)
        (r : ContainerInstance), r ∈ store.containerInstances →
        ∃ r', r' ∈ (refreshContainerInstanceState store clusterName pages false
            epoch).containerInstances ∧ r'.arn = r.arn) ∧
    (∀ (store : Store) (pages : List (Option (List ApiTask))) (epoch : Int)
        (r : Task), r ∈ store.tasks →
        ∃ r', r' ∈ (refreshTaskState store pages false epoch).tasks ∧ r'.arn = r.arn) := by
  constructor
  · intro store clusterName pages epoch r h
    simp only [refreshContainerInstanceState, Bool.false_eq_true, if_false]
    exact processContainerInstancePages_key_total _ _ pages _ r h
  · intro store pages epoch r h
    simp only [refreshTaskState, Bool.false_eq_true, if_false]
    exact processTaskPages_key_total _ pages _ r h

/-! ## C4: garbage collection after a successful cycle -/

/-- C4: after a refresh cycle whose paginated list call succeeded, no
container-instance or task record stamped strictly before the cycle's epoch
remains in the store; in particular the node present in cycle N but absent
from the cycle-N+1 snapshot is absent after cycle N+1, while the re-observed
node survives. -/
theorem c4_stale_records_deleted :
    (∀ (store : Store) (clusterName : String)
        (pages : List (Option (List ApiContainerInstance))) (epoch : Int)
        (r : ContainerInstance), r.refreshTime < epoch →
        r ∉ (refreshContainerInstanceState store clusterName pages true
            epoch).containerInstances) ∧
    (∀ (store : Store) (pages : List (Option (List ApiTask))) (epoch : Int)
        (r : Task), r.refreshTime < epoch →
        r ∉ (refreshTaskState store pages true epoch).tasks) ∧
    (refreshContainerInstanceState storeCycleN "default" snapshotCycleN1 true
        200).containerInstances.all (fun r => r.arn ≠ staleNode.arn) = true ∧
    (refreshContainerInstanceState storeCycleN "default" snapshotCycleN1 true
        200).containerInstances.any (fun r => r.arn = liveNode.arn) = true := by
  refine ⟨?_, ?_, by decide, by decide⟩
  · intro store clusterName pages epoch r hlt hmem
    simp only [refreshContainerInstanceState, if_true] at hmem
    have h2 := (List.mem_filter.mp hmem).2
    simp only [Bool.not_eq_true', decide_eq_false_iff_not] at h2
    exact h2 hlt
  · intro store pages epoch r hlt hmem
    simp only [refreshTaskState, if_true] at hmem
    have h2 := (List.mem_filter.mp hmem).2
    simp only [Bool.not_eq_true', decide_eq_false_iff_not] at h2
    exact h2 hlt

/-! ## C5: what the location query checks about cluster and connectivity -/

/-- C5 counterexample: the location query applies no cluster predicate — a
connected, amply provisioned node stored with a cluster ARN different from
the tracked cluster's is returned. -/
theorem c5_counterexample_no_cluster_filter :
    nodeOtherCluster ∈ findLocationsQuery storeCrossCluster templateNoPorts ∧
    nodeOtherCluster.clusterARN ≠ (findClusterByName storeCrossCluster "default").arn := by
  decide

/-- C5 amended: every container instance returned by the location query has
its connectivity flag true; the query does not restrict the owning cluster,
so cluster scoping holds only insofar as the store is populated from a
single cluster. -/
theorem c5_returned_instances_connected :
    ∀ (store : Store) (td : TaskDefinition) (r : ContainerInstance),
      r ∈ findLocationsQuery store td → r.agentConnected = true := by
  intro store td r h
  exact (mem_findLocationsQuery h).2.2.2.1

/-- C5 witness: the cross-cluster node the query returns is indeed
connected. -/
theorem c5_connected_witness : nodeOtherCluster.agentConnected = true :=
  c5_returned_instances_connected storeCrossCluster templateNoPorts nodeOtherCluster
    (by decide)

/-! ## C10: the task assignment's status columns -/

/-- C10: `taskAssignment` copies the external record's desired status into
both status columns — the stored last status equals the stored desired
status, and the assignment is insensitive to the status the external source
actually reported; consequently every task row written by a refresh has its
last status equal to its desired status. -/
theorem c10_lastStatus_from_desired :
    (∀ t : ApiTask,
        (taskAssignment t).lastStatus = (taskAssignment t).desiredStatus ∧
        (taskAssignment t).desiredStatus = t.desiredStatus ∧
        ∀ s : String, taskAssignment { t with lastStatus := s } = taskAssignment t) ∧
    (∀ (store : Store) (pages : List (Option (List ApiTask))) (listOk : Bool)
        (epoch : Int) (r : Task), r ∈ (refreshTaskState store pages listOk epoch).tasks →
        r ∈ store.tasks ∨ r.lastStatus = r.desiredStatus) := by
  constructor
  · intro t
    exact ⟨rfl, rfl, fun s => rfl⟩
  · intro store pages listOk epoch r h
    cases listOk with
    | true =>
      simp only [refreshTaskState, if_true] at h
      exact mem_processTaskPages (List.mem_filter.mp h).1
    | false =>
      simp only [refreshTaskState, Bool.false_eq_true, if_false] at h
      exact mem_processTaskPages h

/-! ## Lemmas about the task-definition aggregation loop -/

/-- The inner port-mapping loop appends exactly the declared non-zero host
ports of one container definition, split by protocol, to the accumulators. -/
theorem portMappings_foldl (pms : List PortMapping) :
    ∀ tcp udp : List String,
      pms.foldl
        (fun (tu : List String × List String) pm =>
          match pm.hostPort with
          | none => tu
          | some hp =>
            if hp ≠ 0 then
              if pm.protocol = some "udp" then (tu.1, tu.2 ++ [toString hp])
              else (tu.1 ++ [toString hp], tu.2)
            else tu)
        (tcp, udp) =
      (tcp ++ pms.filterMap (fun pm =>
          match pm.hostPort with
          | none => none
          | some hp =>
            if hp ≠ 0 ∧ ¬pm.protocol = some "udp" then some (toString hp) else none),
        udp ++ pms.filterMap (fun pm =>
          match pm.hostPort with
          | none => none
          | some hp =>
            if hp ≠ 0 ∧ pm.protocol = some "udp" then some (toString hp) else none)) := by
  induction pms with
  | nil => intro tcp udp; simp
  | cons pm rest ih =>
    intro tcp udp
    cases hport : pm.hostPort with
    | none => simp only [List.foldl_cons, List.filterMap_cons, hport, ih]
    | some hp =>
      simp only [List.foldl_cons, List.filterMap_cons, hport]
      by_cases h0 : hp = 0
      · rw [if_neg (not_not_intro h0), ih,
          if_neg (by simp [h0] : ¬(hp ≠ 0 ∧ ¬pm.protocol = some "udp")),
          if_neg (by simp [h0] : ¬(hp ≠ 0 ∧ pm.protocol = some "udp"))]
      · by_cases hu : pm.protocol = some "udp"
        · rw [if_pos h0, if_pos hu, ih,
            if_neg (by simp [hu] : ¬(hp ≠ 0 ∧ ¬pm.protocol = some "udp")),
            if_pos (⟨h0, hu⟩ : hp ≠ 0 ∧ pm.protocol = some "udp")]
          simp
        · rw [if_pos h0, if_neg hu, ih,
            if_pos (⟨h0, hu⟩ : hp ≠ 0 ∧ ¬pm.protocol = some "udp"),
            if_neg (by simp [hu] : ¬(hp ≠ 0 ∧ pm.protocol = some "udp"))]
          simp

/-- The aggregation loop totals CPU and memory and collects the declared
ports of every container definition. -/
theorem aggregateDefinitions_foldl (cds : List ContainerDefinition) :
    ∀ (c m : Int) (tcp udp : List String),
      cds.foldl
        (fun acc cd =>
          let ports := cd.portMappings.foldl
            (fun (tu : List String × List String) pm =>
              match pm.hostPort with
              | none => tu
              | some hp =>
                if hp ≠ 0 then
                  if pm.protocol = some "udp" then (tu.1, tu.2 ++ [toString hp])
                  else (tu.1 ++ [toString hp], tu.2)
                else tu)
            (acc.2.2.1, acc.2.2.2)
          (acc.1 + cd.cpu, acc.2.1 + cd.memory, ports.1, ports.2))
        (c, m, tcp, udp) =
      (c + (cds.map (fun cd => cd.cpu)).sum, m + (cds.map (fun cd => cd.memory)).sum,
        tcp ++ declaredTcpPorts cds, udp ++ declaredUdpPorts cds) := by
  induction cds with
  | nil => intro c m tcp udp; simp [declaredTcpPorts, declaredUdpPorts]
  | cons cd rest ih =>
    intro c m tcp udp
    rw [List.foldl_cons]
    dsimp only
    rw [portMappings_foldl, ih]
    simp [declaredTcpPorts, declaredUdpPorts, add_assoc, List.append_assoc]

/-- The aggregates of `resolvedTaskDefinition` in closed form. -/
theorem aggregateDefinitions_spec (cds : List ContainerDefinition) :
    aggregateDefinitions cds =
      ((cds.map (fun cd => cd.cpu)).sum, (cds.map (fun cd => cd.memory)).sum,
        declaredTcpPorts cds, declaredUdpPorts cds) := by
  unfold aggregateDefinitions
  rw [aggregateDefinitions_foldl]
  simp

/-! ## C6: what resolving an uncached reference computes and stores -/

/-- C6: when the reference misses the local store and the external describe
succeeds, `FindTaskDefinition` returns (and inserts, absent a key conflict)
a record whose CPU and memory are the sums over all container definitions
and whose TCP and UDP port strings are exactly the comma-joined non-zero
declared host ports, split by protocol with nil defaulting to TCP. -/
theorem c6_external_resolution_aggregates (store : Store) (td : String)
    (resp : ApiTaskDefinition)
    (hmiss : store.taskDefinitions.find? (taskDefinitionMatches td) = none) :
    findTaskDefinition store td (some resp) =
      some (createTaskDefinition store (resolvedTaskDefinition resp),
        resolvedTaskDefinition resp, true) ∧
    (resolvedTaskDefinition resp).cpu = (resp.containerDefinitions.map (fun cd => cd.cpu)).sum ∧
    (resolvedTaskDefinition resp).memory
      = (resp.containerDefinitions.map (fun cd => cd.memory)).sum ∧
    (resolvedTaskDefinition resp).tcpPorts = joinComma (declaredTcpPorts resp.containerDefinitions) ∧
    (resolvedTaskDefinition resp).udpPorts = joinComma (declaredUdpPorts resp.containerDefinitions) ∧
    ((∀ x ∈ store.taskDefinitions, x.arn ≠ (resolvedTaskDefinition resp).arn ∧
        x.shortString ≠ (resolvedTaskDefinition resp).shortString) →
      resolvedTaskDefinition resp ∈
        (createTaskDefinition store (resolvedTaskDefinition resp)).taskDefinitions) := by
  refine ⟨?_, ?_, ?_, ?_, ?_, ?_⟩
  · simp [findTaskDefinition, hmiss]
  · simp [resolvedTaskDefinition, aggregateDefinitions_spec]
  · simp [resolvedTaskDefinition, aggregateDefinitions_spec]
  · simp [resolvedTaskDefinition, aggregateDefinitions_spec]
  · simp [resolvedTaskDefinition, aggregateDefinitions_spec]
  · intro hclean
    have hany : store.taskDefinitions.any (fun x =>
        x.arn = (resolvedTaskDefinition resp).arn ||
          x.shortString = (resolvedTaskDefinition resp).shortString) = false := by
      rw [List.any_eq_false]
      intro x hx
      simp only [Bool.or_eq_true, decide_eq_true_eq, not_or]
      exact ⟨(hclean x hx).1, (hclean x hx).2⟩
    simp [createTaskDefinition, hany]

/-- C6 witness: resolving `web:3` against the empty store yields CPU 384,
memory 768, TCP ports `80,443` and UDP ports `53`, and stores the record. -/
theorem c6_aggregates_witness :
    findTaskDefinition storeEmpty "web:3" (some respWeb3) =
      some (storeWeb3, resolvedTaskDefinition respWeb3, true) ∧
    (resolvedTaskDefinition respWeb3).cpu = 384 ∧
    (resolvedTaskDefinition respWeb3).memory = 768 ∧
    (resolvedTaskDefinition respWeb3).tcpPorts = "80,443" ∧
    (resolvedTaskDefinition respWeb3).udpPorts = "53" ∧
    resolvedTaskDefinition respWeb3 ∈ storeWeb3.taskDefinitions := by
  have h := c6_external_resolution_aggregates storeEmpty "web:3" respWeb3 rfl
  exact ⟨h.1, h.2.1.trans (by decide), h.2.2.1.trans (by decide),
    h.2.2.2.1.trans (by decide), h.2.2.2.2.1.trans (by decide),
    h.2.2.2.2.2 (by decide)⟩

/-! ## C7: task definitions are written once and served from the cache -/

/-- `find?` skips a region of rows none of which satisfies the predicate. -/
theorem find?_append_of_none {α : Type} {p : α → Bool} {l1 : List α}
    (h : l1.find? p = none) (l2 : List α) : (l1 ++ l2).find? p = l2.find? p := by
  induction l1 with
  | nil => rfl
  | cons x rest ih =>
    have hx : p x = false := by
      simpa using List.find?_eq_none.mp h x (List.mem_cons_self x rest)
    have hrest : rest.find? p = none := by
      rw [List.find?_eq_none] at h ⊢
      intro a ha
      exact h a (List.mem_cons_of_mem _ ha)
    simp only [List.cons_append, List.find?_cons, hx]
    exact ih hrest

/-- C7: task-definition records are write-once and cache-served: no refresh
operation touches the table; `FindTaskDefinition` never removes or changes
a stored record; a reference found in the store is returned as stored with
no external describe call; and a record just resolved and inserted is, on a
second resolution of the same reference, served from the store with no
describe call — concretely so for `web:3`. -/
theorem c7_task_definitions_write_once :
    (∀ (store : Store) (resp : Option (List ApiCluster)),
        (refreshClusterState store resp).taskDefinitions = store.taskDefinitions) ∧
    (∀ (store : Store) (clusterName : String)
        (pages : List (Option (List ApiContainerInstance))) (listOk : Bool) (epoch : Int),
        (refreshContainerInstanceState store clusterName pages listOk
            epoch).taskDefinitions = store.taskDefinitions) ∧
    (∀ (store : Store) (pages : List (Option (List ApiTask))) (listOk : Bool) (epoch : Int),
        (refreshTaskState store pages listOk epoch).taskDefinitions = store.taskDefinitions) ∧
    (∀ (store : Store) (td : String) (describe : Option ApiTaskDefinition)
        (s1 : Store) (r : TaskDefinition) (called : Bool),
        findTaskDefinition store td describe = some (s1, r, called) →
        ∀ x ∈ store.taskDefinitions, x ∈ s1.taskDefinitions) ∧
    (∀ (store : Store) (td : String) (describe : Option ApiTaskDefinition)
        (r : TaskDefinition),
        store.taskDefinitions.find? (taskDefinitionMatches td) = some r →
        findTaskDefinition store td describe = some (store, r, false)) ∧
    (∀ (store : Store) (td : String) (resp : ApiTaskDefinition)
        (describe2 : Option ApiTaskDefinition),
        store.taskDefinitions.find? (taskDefinitionMatches td) = none →
        taskDefinitionMatches td (resolvedTaskDefinition resp) = true →
        (∀ x ∈ store.taskDefinitions,
          ¬(x.arn = (resolvedTaskDefinition resp).arn ||
              x.shortString = (resolvedTaskDefinition resp).shortString) = true) →
        findTaskDefinition (createTaskDefinition store (resolvedTaskDefinition resp)) td
            describe2 =
          some (createTaskDefinition store (resolvedTaskDefinition resp),
            resolvedTaskDefinition resp, false)) ∧
    findTaskDefinition storeWeb3 "web:3" none =
      some (storeWeb3, resolvedTaskDefinition respWeb3, false) := by
  refine ⟨fun store resp => ?_, fun store cn pages ok t => ?_, fun store pages ok t => ?_,
    ?_, ?_, ?_, by decide⟩
  · cases resp <;> rfl
  · simp only [refreshContainerInstanceState]
    cases ok <;> rfl
  · simp only [refreshTaskState]
    cases ok <;> rfl
  · intro store td describe s1 r called h x hx
    unfold findTaskDefinition at h
    cases hfind : store.taskDefinitions.find? (taskDefinitionMatches td) with
    | some r0 =>
      rw [hfind] at h
      simp only [Option.some.injEq, Prod.mk.injEq] at h
      rw [← h.1]
      exact hx
    | none =>
      rw [hfind] at h
      cases describe with
      | none => simp at h
      | some resp =>
        simp only [Option.some.injEq, Prod.mk.injEq] at h
        rw [← h.1]
        unfold createTaskDefinition
        split
        · exact hx
        · exact List.mem_append_left _ hx
  · intro store td describe r h
    simp [findTaskDefinition, h]
  · intro store td resp describe2 hmiss hmatch hclean
    have hany : store.taskDefinitions.any (fun x =>
        x.arn = (resolvedTaskDefinition resp).arn ||
          x.shortString = (resolvedTaskDefinition resp).shortString) = false := by
      rw [List.any_eq_false]
      intro x hx
      exact fun hcontra => hclean x hx (by simpa using hcontra)
    have hstore : (createTaskDefinition store (resolvedTaskDefinition resp)).taskDefinitions
        = store.taskDefinitions ++ [resolvedTaskDefinition resp] := by
      simp [createTaskDefinition, hany]
    have hfind : (createTaskDefinition store
        (resolvedTaskDefinition resp)).taskDefinitions.find? (taskDefinitionMatches td)
        = some (resolvedTaskDefinition resp) := by
      rw [hstore, find?_append_of_none hmiss]
      simp [List.find?_cons, hmatch]
    simp [findTaskDefinition, hfind]

/-! ## C8: a failed external describe call in `FindTaskDefinition` -/

/-- C8: on a store miss with a failed DescribeTaskDefinition call the code
only logs the error and then dereferences `resp.TaskDefinition`, which the
AWS SDK leaves nil on error — the call panics instead of surfacing a
not-found signal, modelled by the `none` result. -/
theorem c8_describe_failure_panics :
    findTaskDefinition storeEmpty "web:1" none = none := rfl

/-! ## Lemmas for refresh idempotence (C9) -/

/-- `keyStep` replaces the head of the keyed row list (or creates it). -/
theorem keyStep_eq {α : Type} (a : α) (st : List α) : keyStep a st = a :: st.tail := by
  cases st <;> rfl

/-- Folding key steps never changes the tail of the keyed row list. -/
theorem foldl_keyStep_tail {α β : Type} (mk : β → α) :
    ∀ (ys : List β) (st : List α),
      (ys.foldl (fun st x => keyStep (mk x) st) st).tail = st.tail := by
  intro ys
  induction ys with
  | nil => intro st; rfl
  | cons y ys ih =>
    intro st
    rw [List.foldl_cons, ih, keyStep_eq]
    rfl

/-- One upsert seen through the filter on a fixed key `k`: it performs a
`keyStep` when the upserted key is `k` and is invisible otherwise. -/
theorem filter_upsertRow {α : Type} (key : α → String) (arn k : String) (a : α)
    (ha : key a = arn) :
    ∀ rows : List α,
      (upsertRow key arn a rows).filter (fun r => key r = k) =
        if arn = k then keyStep a (rows.filter (fun r => key r = k))
        else rows.filter (fun r => key r = k) := by
  intro rows
  induction rows with
  | nil =>
    by_cases hk : arn = k
    · simp [upsertRow, List.filter_cons, ha, hk, keyStep]
    · simp [upsertRow, List.filter_cons, ha, hk]
  | cons r rest ih =>
    simp only [upsertRow]
    by_cases hr : key r = arn
    · rw [if_pos hr]
      by_cases hk : arn = k
      · simp [List.filter_cons, ha, hr, hk, keyStep]
      · simp [List.filter_cons, ha, hr, hk]
    · rw [if_neg hr]
      by_cases hrk : key r = k
      · have hk : ¬arn = k := fun h => hr (hrk.trans h.symm)
        simp [List.filter_cons, hrk, hk, ih]
      · simp [List.filter_cons, hrk, ih]

/-- A whole upsert fold seen through the filter on a fixed key `k`: only the
items carrying key `k` act, each as a `keyStep`. -/
theorem filter_foldl_upsert {α β : Type} (key : α → String) (keyOf : β → String)
    (mk : β → α) (hmk : ∀ x, key (mk x) = keyOf x) (k : String) :
    ∀ (L : List β) (rows : List α),
      (L.foldl (fun rows x => upsertRow key (keyOf x) (mk x) rows) rows).filter
          (fun r => key r = k) =
        (L.filter (fun x => keyOf x = k)).foldl (fun st x => keyStep (mk x) st)
          (rows.filter (fun r => key r = k)) := by
  intro L
  induction L with
  | nil => intro rows; rfl
  | cons x L ih =>
    intro rows
    rw [List.foldl_cons, ih, filter_upsertRow key (keyOf x) k (mk x) (hmk x)]
    by_cases hx : keyOf x = k
    · simp [List.filter_cons, List.foldl_cons, hx]
    · simp [List.filter_cons, hx]

/-- The page fold upserts exactly the records of the flattened snapshot, in
order. -/
theorem processContainerInstancePages_eq (cluster : Cluster) (t : Int) :
    ∀ (pages : List (Option (List ApiContainerInstance))) (rows : List ContainerInstance),
      processContainerInstancePages cluster t pages rows =
        (flattenPages pages).foldl
          (fun rows ci =>
            upsertRow ContainerInstance.arn ci.containerInstanceArn
              (containerInstanceRow cluster t ci) rows)
          rows := by
  intro pages
  induction pages with
  | nil => intro rows; rfl
  | cons page rest ih =>
    intro rows
    cases page with
    | none =>
      show processContainerInstancePages cluster t rest rows = _
      rw [ih]
      simp [flattenPages]
    | some instances =>
      show processContainerInstancePages cluster t rest
          (instances.foldl
            (fun rows ci =>
              upsertRow ContainerInstance.arn ci.containerInstanceArn
                (containerInstanceRow cluster t ci) rows) rows) = _
      rw [ih]
      simp [flattenPages, List.foldl_append]

/-- The task page fold upserts exactly the records of the flattened
snapshot, in order. -/
theorem processTaskPages_eq (t : Int) :
    ∀ (pages : List (Option (List ApiTask))) (rows : List Task),
      processTaskPages t pages rows =
        (flattenPages pages).foldl
          (fun rows x => upsertRow Task.arn x.taskArn (taskRow t x) rows) rows := by
  intro pages
  induction pages with
  | nil => intro rows; rfl
  | cons page rest ih =>
    intro rows
    cases page with
    | none =>
      show processTaskPages t rest rows = _
      rw [ih]
      simp [flattenPages]
    | some tasks =>
      show processTaskPages t rest
          (tasks.foldl (fun rows x => upsertRow Task.arn x.taskArn (taskRow t x) rows)
            rows) = _
      rw [ih]
      simp [flattenPages, List.foldl_append]

/-- Rows all stamped before the epoch are wiped by the deletion filter. -/
theorem filter_not_lt_eq_nil {α : Type} (f : α → Int) (e : Int) :
    ∀ l : List α, (∀ r ∈ l, f r < e) → l.filter (fun r => !(f r < e : Bool)) = [] := by
  intro l h
  rw [List.filter_eq_nil_iff]
  intro a ha
  simp [h a ha]

/-- A refresh leaves the cluster table untouched. -/
theorem refreshContainerInstanceState_clusters (store : Store) (cn : String)
    (pages : List (Option (List ApiContainerInstance))) (ok : Bool) (e : Int) :
    (refreshContainerInstanceState store cn pages ok e).clusters = store.clusters := by
  cases ok <;> rfl

/-- A successful container-instance refresh seen through the filter on one
ARN: the key steps of the snapshot records carrying that ARN run on the
stored rows with that ARN, then the deletion filter runs. -/
theorem refreshCI_filter_arn (store : Store) (cn : String)
    (pages : List (Option (List ApiContainerInstance))) (e : Int) (k : String) :
    (refreshContainerInstanceState store cn pages true e).containerInstances.filter
        (fun r => r.arn = k) =
      (((flattenPages pages).filter (fun x => x.containerInstanceArn = k)).foldl
          (fun st x => keyStep (containerInstanceRow (findClusterByName store cn) e x) st)
          (store.containerInstances.filter (fun r => r.arn = k))).filter
        (fun r => !(r.refreshTime < e : Bool)) := by
  show ((processContainerInstancePages (findClusterByName store cn) e pages
      store.containerInstances).filter (fun r => !(r.refreshTime < e : Bool))).filter
      (fun r => r.arn = k) = _
  rw [List.filter_comm, processContainerInstancePages_eq,
    filter_foldl_upsert ContainerInstance.arn (fun x => x.containerInstanceArn)
      (containerInstanceRow (findClusterByName store cn) e) (fun x => rfl) k]

/-- A successful task refresh seen through the filter on one ARN. -/
theorem refreshTask_filter_arn (store : Store)
    (pages : List (Option (List ApiTask))) (e : Int) (k : String) :
    (refreshTaskState store pages true e).tasks.filter (fun r => r.arn = k) =
      (((flattenPages pages).filter (fun x => x.taskArn = k)).foldl
          (fun st x => keyStep (taskRow e x) st)
          (store.tasks.filter (fun r => r.arn = k))).filter
        (fun r => !(r.refreshTime < e : Bool)) := by
  show ((processTaskPages e pages store.tasks).filter
      (fun r => !(r.refreshTime < e : Bool))).filter (fun r => r.arn = k) = _
  rw [List.filter_comm, processTaskPages_eq,
    filter_foldl_upsert Task.arn (fun x => x.taskArn) (taskRow e) (fun x => rfl) k]

/-- Upserting keeps the key column duplicate-free. -/
theorem upsertRow_map_key_nodup {α : Type} {key : α → String} {k : String} {a : α}
    (ha : key a = k) :
    ∀ {rows : List α}, (rows.map key).Nodup → ((upsertRow key k a rows).map key).Nodup := by
  intro rows
  induction rows with
  | nil => intro _; simp [upsertRow]
  | cons r rest ih =>
    intro h
    simp only [List.map_cons, List.nodup_cons] at h
    by_cases hr : key r = k
    · simp only [upsertRow, if_pos hr, List.map_cons, List.nodup_cons]
      constructor
      · rw [ha, ← hr]
        exact h.1
      · exact h.2
    · simp only [upsertRow, if_neg hr, List.map_cons, List.nodup_cons]
      constructor
      · intro hmem
        rcases List.mem_map.mp hmem with ⟨r', hr', hkey⟩
        rcases mem_upsertRow hr' with h1 | rfl
        · exact h.1 (hkey ▸ List.mem_map_of_mem key h1)
        · exact hr (hkey.symm.trans ha)
      · exact ih h.2

/-- A whole upsert fold keeps the key column duplicate-free. -/
theorem foldl_upsert_map_nodup {α β : Type} (key : α → String) (keyOf : β → String)
    (mk : β → α) (hmk : ∀ x, key (mk x) = keyOf x) :
    ∀ (L : List β) (rows : List α), (rows.map key).Nodup →
      ((L.foldl (fun rows x => upsertRow key (keyOf x) (mk x) rows) rows).map key).Nodup := by
  intro L
  induction L with
  | nil => intro rows h; exact h
  | cons x L ih =>
    intro rows h
    rw [List.foldl_cons]
    exact ih _ (upsertRow_map_key_nodup (hmk x) h)

/-! ## C9: refreshing twice against an unchanged snapshot -/

/-- C9: refreshing a second time against the same snapshot leaves the
store's observable content identical — for every identifier, the records
stored under it are the same up to the refresh epoch (exactly the same for
clusters, which carry none) — and the upsert never creates a second record
with the same identifier: refreshes preserve duplicate-freedom of the ARN
column. -/
theorem c9_refresh_idempotent :
    (∀ (store : Store) (cn : String)
        (pages : List (Option (List ApiContainerInstance))) (e1 e2 : Int),
        (∀ r ∈ store.containerInstances, r.refreshTime < e1) →
        ∀ k : String,
          (((refreshContainerInstanceState (refreshContainerInstanceState store cn pages
              true e1) cn pages true e2).containerInstances.filter
              (fun r => r.arn = k)).map stripContainerInstance) =
            (((refreshContainerInstanceState store cn pages true
                e1).containerInstances.filter (fun r => r.arn = k)).map
              stripContainerInstance)) ∧
    (∀ (store : Store) (pages : List (Option (List ApiTask))) (e1 e2 : Int),
        (∀ r ∈ store.tasks, r.refreshTime < e1) →
        ∀ k : String,
          (((refreshTaskState (refreshTaskState store pages true e1) pages true
              e2).tasks.filter (fun r => r.arn = k)).map stripTask) =
            (((refreshTaskState store pages true e1).tasks.filter
              (fun r => r.arn = k)).map stripTask)) ∧
    (∀ (store : Store) (resp : Option (List ApiCluster)) (k : String),
        (refreshClusterState (refreshClusterState store resp) resp).clusters.filter
            (fun c => c.arn = k) =
          (refreshClusterState store resp).clusters.filter (fun c => c.arn = k)) ∧
    (∀ (store : Store) (cn : String)
        (pages : List (Option (List ApiContainerInstance))) (ok : Bool) (e : Int),
        (store.containerInstances.map ContainerInstance.arn).Nodup →
        ((refreshContainerInstanceState store cn pages ok
            e).containerInstances.map ContainerInstance.arn).Nodup) ∧
    (∀ (store : Store) (pages : List (Option (List ApiTask))) (ok : Bool) (e : Int),
        (store.tasks.map Task.arn).Nodup →
        ((refreshTaskState store pages ok e).tasks.map Task.arn).Nodup) := by
  refine ⟨?_, ?_, ?_, ?_, ?_⟩
  · -- container instances: double refresh per key
    intro store cn pages e1 e2 hold k
    have hfc : findClusterByName (refreshContainerInstanceState store cn pages true e1) cn
        = findClusterByName store cn := by
      unfold findClusterByName
      rw [refreshContainerInstanceState_clusters]
    have h1 := refreshCI_filter_arn store cn pages e1 k
    have h2 := refreshCI_filter_arn (refreshContainerInstanceState store cn pages true e1)
      cn pages e2 k
    rw [hfc, h1] at h2
    rw [h2, h1]
    have htail : ((store.containerInstances.filter (fun r => r.arn = k)).tail.filter
        (fun r => !(r.refreshTime < e1 : Bool))) = [] := by
      refine filter_not_lt_eq_nil _ e1 _ (fun r hr => hold r ?_)
      exact (List.mem_filter.mp ((List.tail_sublist _).subset hr)).1
    rcases List.eq_nil_or_concat
        ((flattenPages pages).filter (fun x => x.containerInstanceArn = k)) with
      hys | ⟨l', x, hys⟩
    · rw [hys]
      simp only [List.foldl_nil]
      have hst0 : ((store.containerInstances.filter (fun r => r.arn = k)).filter
          (fun r => !(r.refreshTime < e1 : Bool))) = [] := by
        refine filter_not_lt_eq_nil _ e1 _ (fun r hr => hold r ?_)
        exact (List.mem_filter.mp hr).1
      rw [hst0]
      simp
    · rw [List.concat_eq_append] at hys
      rw [hys]
      have hfold1 : ∀ st : List ContainerInstance,
          (l' ++ [x]).foldl
              (fun st y => keyStep (containerInstanceRow (findClusterByName store cn) e1 y) st)
              st =
            containerInstanceRow (findClusterByName store cn) e1 x :: st.tail := by
        intro st
        rw [List.foldl_append, List.foldl_cons, List.foldl_nil, keyStep_eq,
          foldl_keyStep_tail]
      have hfold2 : ∀ st : List ContainerInstance,
          (l' ++ [x]).foldl
              (fun st y => keyStep (containerInstanceRow (findClusterByName store cn) e2 y) st)
              st =
            containerInstanceRow (findClusterByName store cn) e2 x :: st.tail := by
        intro st
        rw [List.foldl_append, List.foldl_cons, List.foldl_nil, keyStep_eq,
          foldl_keyStep_tail]
      rw [hfold1]
      have hfil1 : ((containerInstanceRow (findClusterByName store cn) e1 x ::
          (store.containerInstances.filter (fun r => r.arn = k)).tail).filter
          (fun r => !(r.refreshTime < e1 : Bool))) =
          [containerInstanceRow (findClusterByName store cn) e1 x] := by
        rw [List.filter_cons, htail]
        simp [containerInstanceRow]
      rw [hfil1, hfold2]
      simp [List.filter_cons, containerInstanceRow, stripContainerInstance,
        containerInstanceAssignment]
  · -- tasks: double refresh per key
    intro store pages e1 e2 hold k
    have h1 := refreshTask_filter_arn store pages e1 k
    have h2 := refreshTask_filter_arn (refreshTaskState store pages true e1) pages e2 k
    rw [h1] at h2
    rw [h2, h1]
    have htail : ((store.tasks.filter (fun r => r.arn = k)).tail.filter
        (fun r => !(r.refreshTime < e1 : Bool))) = [] := by
      refine filter_not_lt_eq_nil _ e1 _ (fun r hr => hold r ?_)
      exact (List.mem_filter.mp ((List.tail_sublist _).subset hr)).1
    rcases List.eq_nil_or_concat
        ((flattenPages pages).filter (fun x => x.taskArn = k)) with hys | ⟨l', x, hys⟩
    · rw [hys]
      simp only [List.foldl_nil]
      have hst0 : ((store.tasks.filter (fun r => r.arn = k)).filter
          (fun r => !(r.refreshTime < e1 : Bool))) = [] := by
        refine filter_not_lt_eq_nil _ e1 _ (fun r hr => hold r ?_)
        exact (List.mem_filter.mp hr).1
      rw [hst0]
      simp
    · rw [List.concat_eq_append] at hys
      rw [hys]
      have hfold1 : ∀ st : List Task,
          (l' ++ [x]).foldl (fun st y => keyStep (taskRow e1 y) st) st =
            taskRow e1 x :: st.tail := by
        intro st
        rw [List.foldl_append, List.foldl_cons, List.foldl_nil, keyStep_eq,
          foldl_keyStep_tail]
      have hfold2 : ∀ st : List Task,
          (l' ++ [x]).foldl (fun st y => keyStep (taskRow e2 y) st) st =
            taskRow e2 x :: st.tail := by
        intro st
        rw [List.foldl_append, List.foldl_cons, List.foldl_nil, keyStep_eq,
          foldl_keyStep_tail]
      rw [hfold1]
      have hfil1 : ((taskRow e1 x :: (store.tasks.filter (fun r => r.arn = k)).tail).filter
          (fun r => !(r.refreshTime < e1 : Bool))) = [taskRow e1 x] := by
        rw [List.filter_cons, htail]
        simp [taskRow]
      rw [hfil1, hfold2]
      simp [List.filter_cons, taskRow, stripTask, taskAssignment]
  · -- clusters: double refresh per key
    intro store resp k
    cases resp with
    | none => rfl
    | some L =>
      have hchar : ∀ s : Store,
          (refreshClusterState s (some L)).clusters.filter (fun c => c.arn = k) =
            (L.filter (fun c => c.clusterArn = k)).foldl
              (fun st c => keyStep (clusterRow c) st)
              (s.clusters.filter (fun c => c.arn = k)) := by
        intro s
        show (L.foldl (fun rows c => upsertRow Cluster.arn c.clusterArn (clusterRow c) rows)
            s.clusters).filter (fun c => c.arn = k) = _
        rw [filter_foldl_upsert Cluster.arn (fun c => c.clusterArn) clusterRow
          (fun c => rfl) k]
      rw [hchar, hchar]
      rcases List.eq_nil_or_concat (L.filter (fun c => c.clusterArn = k)) with
        hys | ⟨l', x, hys⟩
      · rw [hys]
        rfl
      · rw [List.concat_eq_append] at hys
        rw [hys]
        have hfold : ∀ st : List Cluster,
            (l' ++ [x]).foldl (fun st c => keyStep (clusterRow c) st) st =
              clusterRow x :: st.tail := by
          intro st
          rw [List.foldl_append, List.foldl_cons, List.foldl_nil, keyStep_eq,
            foldl_keyStep_tail]
        rw [hfold, hfold]
        rfl
  · -- container instances: ARN duplicate-freedom
    intro store cn pages ok e h
    cases ok with
    | true =>
      simp only [refreshContainerInstanceState, if_true]
      refine List.Nodup.sublist (List.Sublist.map _ (List.filter_sublist _)) ?_
      rw [processContainerInstancePages_eq]
      exact foldl_upsert_map_nodup ContainerInstance.arn (fun x => x.containerInstanceArn)
        (containerInstanceRow (findClusterByName store cn) e) (fun x => rfl) _ _ h
    | false =>
      simp only [refreshContainerInstanceState, Bool.false_eq_true, if_false]
      rw [processContainerInstancePages_eq]
      exact foldl_upsert_map_nodup ContainerInstance.arn (fun x => x.containerInstanceArn)
        (containerInstanceRow (findClusterByName store cn) e) (fun x => rfl) _ _ h
  · -- tasks: ARN duplicate-freedom
    intro store pages ok e h
    cases ok with
    | true =>
      simp only [refreshTaskState, if_true]
      refine List.Nodup.sublist (List.Sublist.map _ (List.filter_sublist _)) ?_
      rw [processTaskPages_eq]
      exact foldl_upsert_map_nodup Task.arn (fun x => x.taskArn) (taskRow e)
        (fun x => rfl) _ _ h
    | false =>
      simp only [refreshTaskState, Bool.false_eq_true, if_false]
      rw [processTaskPages_eq]
      exact foldl_upsert_map_nodup Task.arn (fun x => x.taskArn) (taskRow e)
        (fun x => rfl) _ _ h

end EcsState
